import Mathlib

/-!
Verification of the flask-telegram-bot core against its specification.

This file shallowly embeds the algorithmic core of the repository:

* `TelegramMessage.get_markdown_v2_text` and its inner closure
  `process_entity` (src/app/models/bot_api/telegram_message.py),
* `TelegramMessage.bot_commands` (same file),
* `TelegramMessageEntity.from_dict`
  (src/app/models/bot_api/telegram_message_entity.py),
* `BotDispatcher.process_update`, `BotDispatcher.get` and the token setter
  (src/telegram_bot/dispatcher.py).

Python strings are modelled as `List Char` (Python indexes by code point),
Python `int` as `Int`, Python dicts as insertion-ordered association lists,
and raised exceptions as `Except PyExc`.  Mutable-closure recursion in
`process_entity` is modelled with an explicit `processed` list threaded
through a fuel-indexed recursion; the fuel `entities.length + 1` strictly
bounds the recursion depth of the Python original, so the out-of-fuel
branch is unreachable from `renderCore`.
-/

/-- Python exceptions that the embedded code can raise. -/
inductive PyExc where
  | keyErr
  | assertionErr
  | invalidBotToken
  | outOfFuel
deriving DecidableEq

/-- Python slice index resolution: negative indices count from the end,
indices are clamped to `[0, n]`.  Mirrors CPython semantics of `s[a:b]`. -/
def pyIdx (n : Nat) (i : Int) : Nat :=
  if i < 0 then n - (-i).toNat else min i.toNat n

/-- Python string slice `s[a:b]`. -/
def pySlice (s : List Char) (a b : Int) : List Char :=
  (s.take (pyIdx s.length b)).drop (pyIdx s.length a)

/-- The substitution `re.sub(f"([{re.escape(cs)}])", r"\\\1", s)`: a backslash
is inserted before every character of `s` that occurs in `cs`. -/
def escapeSet (cs : List Char) : List Char → List Char
  | [] => []
  | c :: rest => (if cs.contains c then ['\\', c] else [c]) ++ escapeSet cs rest

/-- Characters stripped by Python `str.strip()` (ASCII whitespace). -/
def pyIsSpace (c : Char) : Bool :=
  c = ' ' || c = '\t' || c = '\n' || c = '\r' || c = '\x0b' || c = '\x0c'

/-- Python `str.strip()`. -/
def pyStrip (s : List Char) : List Char :=
  ((s.dropWhile pyIsSpace).reverse.dropWhile pyIsSpace).reverse

/-- Python `str.split(sep)` for a one-character separator: splits at every
occurrence, keeping empty pieces; `"".split(" ") = [""]`. -/
def pySplitChar (sep : Char) : List Char → List (List Char)
  | [] => [[]]
  | c :: rest =>
    if c = sep then [] :: pySplitChar sep rest
    else
      match pySplitChar sep rest with
      | [] => [[c]]
      | g :: gs => (c :: g) :: gs

/-- Python dict lookup `d.get(k)` over an insertion-ordered assoc list. -/
def pyDictGet (l : List (String × α)) (k : String) : Option α :=
  (l.find? (fun p => p.1 == k)).map (fun p => p.2)

/-- Python dict assignment `d[k] = v`: replaces the value in place if the key
exists, keeping its position, and appends otherwise. -/
def pyDictInsert (l : List (String × α)) (k : String) (v : α) :
    List (String × α) :=
  match l with
  | [] => [(k, v)]
  | (k', v') :: rest =>
    if k' == k then (k', v) :: rest else (k', v') :: pyDictInsert rest k v

/-- Digits-only numeral parser used by the model of Python `int(...)`. -/
def parseDigits (l : List Char) : Option Nat :=
  if l ≠ [] ∧ l.all Char.isDigit then
    some (l.foldl (fun a c => a * 10 + (c.toNat - 48)) 0)
  else none

/-- Python `int(s)` on a string: optional surrounding whitespace, optional
sign, then decimal digits; anything else raises (modelled as `none`). -/
def pyParseInt (s : List Char) : Option Int :=
  match pyStrip s with
  | [] => none
  | c :: rest =>
    if c = '-' then (parseDigits rest).map (fun n => -(n : Int))
    else if c = '+' then (parseDigits rest).map (fun n => (n : Int))
    else (parseDigits (c :: rest)).map (fun n => (n : Int))

/-- A `TelegramMessageEntity` as used by the renderer and extractor:
`entity_type`, `offset`, `length` (DB integers, so possibly negative),
the optional `url` payload, the optional text-mention user (modelled by the
mentioned user's id) and the optional `language`. -/
structure Ent where
  etype : String
  offset : Int
  length : Int
  url : Option (List Char)
  tmUser : Option Int
  language : Option (List Char)
deriving DecidableEq

/-- Entity with only kind, offset and length set (payload fields `None`). -/
def mkEnt (ty : String) (o l : Int) : Ent :=
  ⟨ty, o, l, none, none, none⟩

/-- The raw dict passed to `TelegramMessageEntity.from_dict`: `d["type"]`,
`d["offset"]`, `d["length"]` raise `KeyError` when absent, the rest are
`d.get(...)`. -/
structure RawEnt where
  rtype : Option String
  roffset : Option Int
  rlength : Option Int
  rurl : Option (List Char)
  ruser : Option Int
  rlanguage : Option (List Char)
deriving DecidableEq

/-- Embeds `TelegramMessageEntity.from_dict`: copies `d["type"]`,
`d["offset"]`, `d["length"]` (raising `KeyError` when one is missing) and the
optional payloads; no validation of any kind is performed. -/
def entity_from_dict (d : RawEnt) : Except PyExc Ent :=
  match d.rtype, d.roffset, d.rlength with
  | some ty, some o, some l => Except.ok ⟨ty, o, l, d.rurl, d.ruser, d.rlanguage⟩
  | _, _, _ => Except.error PyExc.keyErr

/-- The class constant `TelegramMessage.RE_ESCAPE_COMMON`,
`r"_*[]()~`>#+-=|{}.!"` (the two braces written here as hex escapes). -/
def ESC_COMMON : List Char := "_*[]()~`>#+-=|\x7b\x7d.!".toList

/-- The class constant `TelegramMessage.RE_ESCAPE_CODE`, the raw string
`r"\`"`, i.e. the two characters backslash and backtick. -/
def ESC_CODE : List Char := "\\`".toList

/-- The class constant `TelegramMessage.RE_ESCAPE_URL`, the raw string
`r"\)"`, i.e. the two characters backslash and closing parenthesis. -/
def ESC_URL : List Char := "\\)".toList

/-- The kind-dependent wrapping applied at the end of `process_entity`
(telegram_message.py lines 313-341).  `url`/`text_link` entities assert a
non-`None` url; a `text_mention` without a user falls through unwrapped, as
does any unknown kind. -/
def wrapEnt (e : Ent) (body : List Char) : Except PyExc (List Char) :=
  if e.etype = "bold" then Except.ok ("*".toList ++ body ++ "*".toList)
  else if e.etype = "italic" then Except.ok ("_".toList ++ body ++ "_".toList)
  else if e.etype = "underline" then
    Except.ok ("__".toList ++ body ++ "__".toList)
  else if e.etype = "strikethrough" then
    Except.ok ("~".toList ++ body ++ "~".toList)
  else if e.etype = "pre" then
    let lang : List Char :=
      match e.language with
      | some l => if l = [] then [] else l ++ "\n".toList
      | none => []
    let pfx : List Char :=
      if body.head? = some '\\' ∧ lang = [] then "\n".toList else []
    Except.ok ("```".toList ++ pfx ++ lang ++ body ++ "```".toList)
  else if e.etype = "code" then Except.ok ("`".toList ++ body ++ "`".toList)
  else if e.etype = "url" ∨ e.etype = "text_link" then
    match e.url with
    | none => Except.error PyExc.assertionErr
    | some u =>
      Except.ok ("[".toList ++ body ++ "](".toList ++ escapeSet ESC_URL u
        ++ ")".toList)
  else if e.etype = "text_mention" then
    match e.tmUser with
    | none => Except.ok body
    | some uid =>
      Except.ok ("[".toList ++ body ++ "](tg://user?id=".toList
        ++ (toString uid).toList ++ ")".toList)
  else Except.ok body

/-- Stable insertion (descending by `length`) modelling one step of
`sorted(entities, key=attrgetter("length"), reverse=True)`. -/
def insLenDesc (x : Nat × Ent) : List (Nat × Ent) → List (Nat × Ent)
  | [] => [x]
  | y :: ys =>
    if y.2.length ≥ x.2.length then y :: insLenDesc x ys else x :: y :: ys

/-- Stable insertion (ascending by `offset`) modelling one step of
`sorted(..., key=attrgetter("offset"))`. -/
def insOffAsc (x : Nat × Ent) : List (Nat × Ent) → List (Nat × Ent)
  | [] => [x]
  | y :: ys =>
    if y.2.offset ≤ x.2.offset then y :: insOffAsc x ys else x :: y :: ys

/-- The double stable sort of `get_markdown_v2_text` (lines 234-240): first
by `length` descending, then by `offset` ascending; since both passes are
stable this orders by offset ascending with ties broken longest-first.
Entities are tagged with their index so that the object identity used by
`entity not in processed_entities` can be tracked. -/
def sortEnts (l : List (Nat × Ent)) : List (Nat × Ent) :=
  (l.foldl (fun acc x => insLenDesc x acc) []).foldl
    (fun acc x => insOffAsc x acc) []

/-- One recursion of `process_entity` (telegram_message.py lines 242-341).
`fuel` bounds the recursion depth (each recursive call is on an entity newly
added to `processed`, so depth never exceeds the number of entities);
`sorted` is the sorted, index-tagged entity list; `off` is the `offset`
argument of `get_markdown_v2_text`; `processed` models the mutable
`processed_entities` list (by entity identity, i.e. index); `ent` is the
current entity or `none` for the top-level call.  Returns the updated
`processed` list and the rendered text or the raised exception. -/
def go (fuel : Nat) (sorted : List (Nat × Ent)) (text : List Char) (off : Int)
    (processed : List Nat) (ent : Option (Nat × Ent)) :
    List Nat × Except PyExc (List Char) :=
  match fuel with
  | 0 => (processed, Except.error PyExc.outOfFuel)
  | f + 1 =>
    let entityOffset : Int :=
      match ent with
      | none => off
      | some ie => ie.2.offset
    let entityLength : Int :=
      match ent with
      | none => (text.length : Int) - off
      | some ie => ie.2.length
    let reEscape : List Char :=
      match ent with
      | none => ESC_COMMON
      | some ie =>
        if ie.2.etype = "code" ∨ ie.2.etype = "pre" then ESC_CODE
        else if ie.2.etype = "text_link" then ESC_URL
        else ESC_COMMON
    let processed1 : List Nat :=
      match ent with
      | none => processed
      | some ie =>
        if processed.contains ie.1 then processed else processed ++ [ie.1]
    let skipNested : Bool :=
      match ent with
      | none => false
      | some ie => ie.2.etype = "pre" || ie.2.etype = "code"
    let nested : List (Nat × Ent) :=
      if skipNested then []
      else
        sorted.filter (fun ne =>
          decide (entityOffset ≤ ne.2.offset) &&
          decide (ne.2.offset + ne.2.length ≤ entityOffset + entityLength) &&
          (match ent with
           | none => true
           | some ie => ne.1 != ie.1) &&
          !(processed1.contains ne.1))
    let step : (Int × List Nat × Except PyExc (List Char)) → (Nat × Ent) →
        (Int × List Nat × Except PyExc (List Char)) := fun acc ne =>
      match acc with
      | (curOff, proc, Except.error e) => (curOff, proc, Except.error e)
      | (curOff, proc, Except.ok chunks) =>
        let chunkPre : List Char :=
          if curOff < ne.2.offset then
            escapeSet reEscape (pySlice text curOff ne.2.offset)
          else []
        if proc.contains ne.1 then
          (ne.2.offset + ne.2.length, proc, Except.ok (chunks ++ chunkPre))
        else
          match go f sorted text off proc (some ne) with
          | (proc', Except.error e) =>
            (ne.2.offset + ne.2.length, proc', Except.error e)
          | (proc', Except.ok sub) =>
            (ne.2.offset + ne.2.length, proc',
              Except.ok (chunks ++ chunkPre ++ sub))
    match nested.foldl step (entityOffset, processed1, Except.ok []) with
    | (_, proc2, Except.error e) => (proc2, Except.error e)
    | (curOff, proc2, Except.ok body) =>
      let tl : List Char :=
        if curOff < entityOffset + entityLength then
          escapeSet ESC_COMMON (pySlice text curOff (entityOffset + entityLength))
        else []
      let txt := body ++ tl
      match ent with
      | none => (proc2, Except.ok txt)
      | some ie =>
        match wrapEnt ie.2 txt with
        | Except.error e => (proc2, Except.error e)
        | Except.ok w => (proc2, Except.ok w)

/-- Embeds `get_markdown_v2_text` on string text: sort the entities, then run
the top-level `process_entity(None)` call. -/
def renderCore (text : List Char) (entities : List Ent) (off : Int) :
    Except PyExc (List Char) :=
  (go (entities.length + 1) (sortEnts entities.enum) text off [] none).2

/-- Embeds `TelegramMessage.get_markdown_v2_text` including the
`isinstance(self.text, str)` guard: a `None` text (the only non-string value
the nullable DB column can hold) is returned unchanged. -/
def get_markdown_v2_text (text : Option (List Char)) (entities : List Ent)
    (off : Int) : Except PyExc (Option (List Char)) :=
  match text with
  | none => Except.ok none
  | some t => (renderCore t entities off).map some

/-- The command token `self.text[ent.offset : ent.length]` of
`bot_commands` (line 215): the entity's `length` is used as the slice
endpoint, not `offset + length`. -/
def cmdTok (t : List Char) (e : Ent) : List Char :=
  pySlice t e.offset e.length

/-- The parameters `self.text[ent.offset + ent.length :].strip().split(" ")`
of `bot_commands` (line 216). -/
def cmdParams (t : List Char) (e : Ent) : List (List Char) :=
  pySplitChar ' ' (pyStrip (pySlice t (e.offset + e.length) (t.length : Int)))

/-- One iteration of the `bot_commands` loop (lines 213-218): a
`bot_command` entity contributes its token and parameters unless the token
is already a key of the result (`if cmd not in result`). -/
def botCmdStep (t : List Char) (result : List (List Char × List (List Char)))
    (e : Ent) : List (List Char × List (List Char)) :=
  if e.etype = "bot_command" then
    if result.any (fun p => p.1 == cmdTok t e) then result
    else result ++ [(cmdTok t e, cmdParams t e)]
  else result

/-- Embeds the `TelegramMessage.bot_commands` property (lines 200-219):
scan the entities in their given (unsorted) order; for each `bot_command`
the command token is `text[offset : length]` (the `length` is used as the
slice endpoint) and the parameters are `text[offset+length :]` stripped and
split on single spaces; the first occurrence of a command token wins.
Returns the empty mapping when `text` is not a string. -/
def bot_commands (text : Option (List Char)) (entities : List Ent) :
    List (List Char × List (List Char)) :=
  match text with
  | none => []
  | some t => entities.foldl (botCmdStep t) []

/-- Keeps the first pair for each key, dropping later pairs with a key
already seen; used by the spec-side extractor. -/
def firstWins (seen : List (List Char)) :
    List (List Char × List (List Char)) → List (List Char × List (List Char))
  | [] => []
  | p :: rest =>
    if p.1 ∈ seen then firstWins seen rest
    else p :: firstWins (seen ++ [p.1]) rest

/-- Command extraction written independently from the words of spec §4.3:
scan entities in their given order for `bot_command` kind; the command token
is `text[offset : length]`; the arguments are `text[offset+length :]`
trimmed and split on single spaces; insertion order is preserved and the
first occurrence of a command token wins; empty mapping for non-string
text. -/
def extract_commands_spec (text : Option (List Char)) (entities : List Ent) :
    List (List Char × List (List Char)) :=
  match text with
  | none => []
  | some t =>
    firstWins []
      ((entities.filter (fun e => e.etype = "bot_command")).map (fun e =>
        (cmdTok t e, cmdParams t e)))

/-- Python values as far as the dispatcher observes them: `None`, booleans,
ints, strings, lists and string-keyed dicts. -/
inductive PyVal where
  | pnone
  | pbool (b : Bool)
  | pint (n : Int)
  | pstr (s : String)
  | plist (l : List PyVal)
  | pdict (entries : List (String × PyVal))

/-- Python truthiness of a `PyVal`. -/
def truthy : PyVal → Bool
  | PyVal.pnone => false
  | PyVal.pbool b => b
  | PyVal.pint n => n != 0
  | PyVal.pstr s => s ≠ ""
  | PyVal.plist l => !l.isEmpty
  | PyVal.pdict l => !l.isEmpty

/-- Embeds the loop of `BotDispatcher.process_update` (dispatcher.py lines
87-93): call each handler, record its raw result in the log under the
handler's label, and stop when the result is falsy, or when it is a dict
whose `"ok"` entry is not the `True` object (`f_result["ok"] is not True`);
looking up `"ok"` in a truthy dict that lacks it raises `KeyError`. -/
def puGo (u : PyVal) (log : List (String × PyVal)) :
    List (String × (PyVal → PyVal)) → Except PyExc (List (String × PyVal))
  | [] => Except.ok log
  | (lbl, f) :: rest =>
    let r := f u
    let log1 := pyDictInsert log lbl r
    if truthy r then
      match r with
      | PyVal.pdict entries =>
        match pyDictGet entries "ok" with
        | none => Except.error PyExc.keyErr
        | some (PyVal.pbool true) => puGo u log1 rest
        | some _ => Except.ok log1
      | _ => puGo u log1 rest
    else Except.ok log1

/-- Embeds `BotDispatcher.process_update`: handlers are the registered
`update_handlers` paired with the label `f.__module__ + "." + f.__qualname__`
under which each result is logged. -/
def process_update (handlers : List (String × (PyVal → PyVal)))
    (u : PyVal) : Except PyExc (List (String × PyVal)) :=
  puGo u [] handlers

/-- A handler result after which the dispatcher continues with the next
handler: truthy, and when it is a dict its `"ok"` entry is the `True`
object. -/
def continuesB (r : PyVal) : Bool :=
  truthy r &&
    (match r with
     | PyVal.pdict entries =>
       match pyDictGet entries "ok" with
       | some (PyVal.pbool true) => true
       | _ => false
     | _ => true)

/-- A handler result on which the dispatcher stops cleanly (without raising):
falsy, or a dict whose `"ok"` entry is present but is not the `True`
object. -/
def stopsCleanB (r : PyVal) : Bool :=
  !truthy r ||
    (match r with
     | PyVal.pdict entries =>
       match pyDictGet entries "ok" with
       | some (PyVal.pbool true) => false
       | some _ => true
       | none => false
     | _ => false)

/-- A `BotDispatcher` instance: its token, the `user_id` parsed from the
token by the token setter, the registered update handlers (label and
callable), and an identity surrogate distinguishing distinct Python
objects. -/
structure BotD where
  token : String
  userId : Int
  updateHandlers : List (String × (PyVal → PyVal))
  uid : Nat

/-- The class-level `BotDispatcher._bots` registry together with the next
fresh object identity. -/
structure Registry where
  bots : List (String × BotD)
  nextUid : Nat

/-- Embeds `BotDispatcher.__init__` (lines 39-54): the token setter parses
`int(value.split(":")[0])` and raises `EInvalidBotToken` when that fails;
on success the fresh instance (empty handler list) is stored in
`_bots[token]`, overwriting any previous entry. -/
def dispatcherInit (tok : String) (st : Registry) :
    Except PyExc (BotD × Registry) :=
  match pyParseInt (tok.toList.takeWhile (fun c => c ≠ ':')) with
  | none => Except.error PyExc.invalidBotToken
  | some n =>
    let d : BotD := ⟨tok, n, [], st.nextUid⟩
    Except.ok (d, ⟨pyDictInsert st.bots tok d, st.nextUid + 1⟩)

/-- Embeds `BotDispatcher.get` (lines 34-37): `cls._bots.get(token,
cls(token))` evaluates the fallback `cls(token)` unconditionally (Python
evaluates call arguments eagerly), which stores the fresh instance in the
registry before the lookup runs on that same, now-updated dict. -/
def bot_dispatcher_get (st : Registry) (tok : String) :
    Except PyExc (BotD × Registry) :=
  match dispatcherInit tok st with
  | Except.error e => Except.error e
  | Except.ok (fresh, st1) =>
    Except.ok ((pyDictGet st1.bots tok).getD fresh, st1)

/-- Helper for `escapedOnce`: scans with a flag telling whether the previous
character was an escaping backslash. -/
def escOnceAux (afterBs : Bool) : List Char → Bool
  | [] => !afterBs
  | c :: rest =>
    if afterBs then ESC_COMMON.contains c && escOnceAux false rest
    else if c = '\\' then escOnceAux true rest
    else !(ESC_COMMON.contains c) && escOnceAux false rest

/-- Recognizes output in which every common-markup character is preceded by
exactly one backslash and every backslash escapes exactly one common-markup
character. -/
def escapedOnce (l : List Char) : Bool := escOnceAux false l

-- sanity checks for the embedding (kept as anonymous theorems)
example : renderCore "ab".toList [] 0 = Except.ok "ab".toList := rfl
example : renderCore "a.b".toList [] 0 = Except.ok "a\\.b".toList := rfl
example : renderCore "a.b".toList [mkEnt "code" 0 3] 0 =
    Except.ok "`a\\.b`".toList := rfl
example : renderCore "abcdef".toList [mkEnt "code" 0 6, mkEnt "bold" 2 2] 0 =
    Except.ok "`abcdef`*cd*ef".toList := rfl
example : renderCore "abcd".toList [mkEnt "bold" 0 4, mkEnt "italic" 0 2] 0 =
    Except.ok "*_ab_cd*cd".toList := rfl
example : renderCore "abcd".toList [mkEnt "code" 0 4, mkEnt "bold" 0 2] 0 =
    Except.ok "`abcd`*ab*cd".toList := rfl
example : bot_commands (some "/start hello world".toList)
    [mkEnt "bot_command" 0 6] =
    [("/start".toList, ["hello".toList, "world".toList])] := rfl
example : bot_commands (some "/go".toList) [mkEnt "bot_command" 0 3] =
    [("/go".toList, [[]])] := rfl
example : process_update
    [("m.h1", fun _ => PyVal.pbool true), ("m.h2", fun _ => PyVal.pbool false),
     ("m.h3", fun _ => PyVal.pbool true)] PyVal.pnone =
    Except.ok [("m.h1", PyVal.pbool true), ("m.h2", PyVal.pbool false)] := rfl
example : process_update
    [("m.h1", fun _ => PyVal.pdict [("x", PyVal.pint 1)])] PyVal.pnone =
    Except.error PyExc.keyErr := rfl
example : bot_dispatcher_get ⟨[], 0⟩ "x" =
    Except.error PyExc.invalidBotToken := rfl
example : bot_dispatcher_get ⟨[], 7⟩ "42:abc" =
    Except.ok (⟨"42:abc", 42, [], 7⟩, ⟨[("42:abc", ⟨"42:abc", 42, [], 7⟩)], 8⟩) := rfl
example : escapedOnce "a\\.b\\!c".toList = true := rfl
example : escapedOnce "a\\\\.b".toList = false := rfl
example : renderCore "\\.".toList [] 0 = Except.ok "\\\\.".toList := rfl

/-! Helper lemmas about the Python-dict and slicing models. -/

theorem pySlice_zero_length (t : List Char) :
    pySlice t 0 (t.length : Int) = t := by
  simp [pySlice, pyIdx]

theorem pySlice_len_len (t : List Char) :
    pySlice t (t.length : Int) (t.length : Int) = [] := by
  simp [pySlice, pyIdx]

theorem pySlice_zero_zero (t : List Char) : pySlice t 0 0 = [] := by
  simp [pySlice, pyIdx]

theorem pyDictInsert_fresh {α : Type} (l : List (String × α)) (k : String)
    (v : α) (h : k ∉ l.map Prod.fst) : pyDictInsert l k v = l ++ [(k, v)] := by
  induction l with
  | nil => rfl
  | cons p rest ih =>
    have h1 : ¬(p.1 = k) := by
      intro e
      exact h (by simp [e])
    have h2 : k ∉ rest.map Prod.fst := by
      intro m
      exact h (by simp [m])
    simp [pyDictInsert, h1, ih h2]

theorem pyDictGet_pyDictInsert_self {α : Type} (l : List (String × α))
    (k : String) (v : α) : pyDictGet (pyDictInsert l k v) k = some v := by
  induction l with
  | nil => simp [pyDictInsert, pyDictGet, List.find?]
  | cons p rest ih =>
    by_cases h : p.1 = k
    · simp [pyDictInsert, pyDictGet, List.find?, h]
    · have hne : (p.1 == k) = false := by simp [h]
      have h1 : pyDictInsert (p :: rest) k v = p :: pyDictInsert rest k v := by
        simp [pyDictInsert, hne]
      rw [h1, pyDictGet, List.find?]
      rw [hne]
      exact ih

theorem any_key_eq_mem {β : Type} (l : List (List Char × β))
    (k : List Char) :
    l.any (fun p => p.1 == k) = decide (k ∈ l.map Prod.fst) := by
  induction l with
  | nil => rfl
  | cons p rest ih =>
    rw [List.any_cons, ih, List.map_cons]
    by_cases h : p.1 = k
    · subst h
      rw [beq_self_eq_true, Bool.true_or,
        decide_eq_true (List.mem_cons_self _ _)]
    · have h1 : (p.1 == k) = false := by simp [h]
      have h2 : (k ∈ p.1 :: rest.map Prod.fst) ↔ (k ∈ rest.map Prod.fst) := by
        constructor
        · intro hm
          rcases List.mem_cons.mp hm with he | hm2
          · exact absurd he.symm h
          · exact hm2
        · exact fun hm => List.mem_cons_of_mem _ hm
      rw [h1, Bool.false_or, decide_eq_decide.mpr h2]

/-! Helper lemmas for the command extractor. -/

theorem botCmdStep_skip (t : List Char) (result : List (List Char × List (List Char)))
    (e : Ent) (h : ¬(e.etype = "bot_command")) : botCmdStep t result e = result := by
  simp [botCmdStep, h]

theorem botCmdStep_dup (t : List Char) (result : List (List Char × List (List Char)))
    (e : Ent) (hty : e.etype = "bot_command")
    (hmem : result.any (fun p => p.1 == cmdTok t e) = true) :
    botCmdStep t result e = result := by
  simp [botCmdStep, hty, hmem]

theorem botCmdStep_new (t : List Char) (result : List (List Char × List (List Char)))
    (e : Ent) (hty : e.etype = "bot_command")
    (hmem : result.any (fun p => p.1 == cmdTok t e) = false) :
    botCmdStep t result e = result ++ [(cmdTok t e, cmdParams t e)] := by
  simp [botCmdStep, hty, hmem]

theorem firstWins_cons_mem (seen : List (List Char))
    (p : List Char × List (List Char)) (l : List (List Char × List (List Char)))
    (h : p.1 ∈ seen) : firstWins seen (p :: l) = firstWins seen l := by
  simp [firstWins, h]

theorem firstWins_cons_new (seen : List (List Char))
    (p : List Char × List (List Char)) (l : List (List Char × List (List Char)))
    (h : p.1 ∉ seen) :
    firstWins seen (p :: l) = p :: firstWins (seen ++ [p.1]) l := by
  simp [firstWins, h]

theorem bot_commands_foldl_firstWins (t : List Char) (es : List Ent)
    (result : List (List Char × List (List Char))) :
    es.foldl (botCmdStep t) result =
    result ++ firstWins (result.map Prod.fst)
      ((es.filter (fun e => e.etype = "bot_command")).map (fun e =>
        (cmdTok t e, cmdParams t e))) := by
  induction es generalizing result with
  | nil => simp [firstWins]
  | cons e rest ih =>
    rw [List.foldl_cons, List.filter_cons]
    by_cases hty : e.etype = "bot_command"
    · rw [if_pos (by simpa using hty), List.map_cons]
      by_cases hmem : result.any (fun p => p.1 == cmdTok t e) = true
      · have hc : cmdTok t e ∈ result.map Prod.fst := by
          have h0 := any_key_eq_mem result (cmdTok t e)
          rw [hmem] at h0
          exact of_decide_eq_true h0.symm
        rw [botCmdStep_dup t result e hty hmem, ih result,
          firstWins_cons_mem _ _ _ hc]
      · have hmem' : result.any (fun p => p.1 == cmdTok t e) = false :=
          Bool.eq_false_iff.mpr hmem
        have hc : cmdTok t e ∉ result.map Prod.fst := by
          have h0 := any_key_eq_mem result (cmdTok t e)
          rw [hmem'] at h0
          exact of_decide_eq_false h0.symm
        rw [botCmdStep_new t result e hty hmem',
          ih (result ++ [(cmdTok t e, cmdParams t e)]),
          firstWins_cons_new _ _ _ hc]
        simp
    · rw [if_neg (by simpa using hty), botCmdStep_skip t result e hty, ih result]

/-! Helper lemmas for the renderer on entity-free text. -/

theorem renderCore_nil (t : List Char) :
    renderCore t [] 0 = Except.ok (escapeSet ESC_COMMON t) := by
  show (go (0 + 1) (sortEnts []) t 0 [] none).2 = _
  have hidx : (0 : Int) + ((t.length : Int) - 0) = (t.length : Int) := by ring
  rcases t with _ | ⟨c, rest⟩
  · rfl
  · have hpos : (0 : Int) < (((c :: rest).length : Int)) := by
      exact_mod_cast Nat.succ_pos rest.length
    simp only [go, sortEnts, List.foldl, List.filter, List.foldl_nil,
      Bool.false_eq_true, if_false, hidx, pySlice_zero_length,
      List.nil_append]
    rw [if_pos hpos]

theorem escapedOnce_escapeSet (t : List Char) (h : '\\' ∉ t) :
    escapedOnce (escapeSet ESC_COMMON t) = true := by
  induction t with
  | nil => rfl
  | cons c rest ih =>
    have hc : ¬(c = '\\') := by
      intro e
      exact h (by simp [e])
    have hr : '\\' ∉ rest := by
      intro m
      exact h (by simp [m])
    by_cases hm : c ∈ ESC_COMMON
    · have h1 : escapeSet ESC_COMMON (c :: rest) =
          '\\' :: c :: escapeSet ESC_COMMON rest := by
        simp [escapeSet, hm]
      simp only [escapedOnce] at ih ⊢
      rw [h1]
      simp [escOnceAux, hm, ih hr]
    · have h1 : escapeSet ESC_COMMON (c :: rest) =
          c :: escapeSet ESC_COMMON rest := by
        simp [escapeSet, hm]
      simp only [escapedOnce] at ih ⊢
      rw [h1]
      simp [escOnceAux, hc, hm, ih hr]

/-! The claims. -/

/-- C1: the claim states that inside a `code`/`pre` entity only the literal
backtick fence character is escaped, so no other character of a code body
acquires a backslash.  The code contradicts this (and the docstrings of its
own `RE_ESCAPE_COMMON`/`RE_ESCAPE_CODE` constants): the trailing-chunk
escape at telegram_message.py line 305 always uses `RE_ESCAPE_COMMON`, and
since `code`/`pre` entities collect no nested entities their whole body is
that trailing chunk.  Evaluating the embedded renderer at the failing input
`"a.b"` with a single `code` entity covering it yields a body whose dot is
escaped. -/
theorem claims_C1 :
    renderCore "a.b".toList [mkEnt "code" 0 3] 0 =
      Except.ok "`a\\.b`".toList ∧
    "`a\\.b`".toList ≠ "`a.b`".toList := by
  constructor
  · rfl
  · decide

/-- C2: the claim states that an entity nested inside a `code`/`pre` entity
is emitted exactly once, as literal escaped text inside the fenced body,
with no markup wrapper and no duplicated text.  The code violates this: the
nested entity is skipped while rendering the code entity but is not marked
visited for the cursor bookkeeping of the outer call, so after the fence it
is rendered again with its own wrapper and the cursor is moved back,
duplicating the trailing text.  Evaluating the embedded renderer at
`"abcdef"` with entities `code(0,6)` and `bold(2,2)` shows the bold inner
entity re-emitted as `*cd*` after the fence, followed by a duplicated
`ef`. -/
theorem claims_C2 :
    renderCore "abcdef".toList [mkEnt "code" 0 6, mkEnt "bold" 2 2] 0 =
      Except.ok ("`abcdef`".toList ++ "*cd*ef".toList) ∧
    '*' ∉ "`abcdef`".toList := by
  constructor
  · rfl
  · decide

/-- C4: command extraction scans entities in their given order, takes the
token as `text[offset : length]` (length as the slice endpoint) and the
arguments as `text[offset+length :]` stripped and split on single spaces,
with the first occurrence of a token winning; this is proved as an
equivalence between the embedded `bot_commands` and an extractor written
independently from the words of spec §4.3, together with the concrete
example: `"/start hello world"` with one `bot_command` entity at offset 0
length 6 yields a single key `"/start"` with arguments
`["hello", "world"]`. -/
theorem claims_C4 :
    (∀ (t : Option (List Char)) (es : List Ent),
      bot_commands t es = extract_commands_spec t es) ∧
    bot_commands (some "/start hello world".toList)
        [mkEnt "bot_command" 0 6] =
      [("/start".toList, ["hello".toList, "world".toList])] := by
  constructor
  · intro t es
    rcases t with _ | t
    · rfl
    · show _ = extract_commands_spec (some t) es
      rw [bot_commands, extract_commands_spec]
      simpa using bot_commands_foldl_firstWins t es []
  · rfl

/-- C6 (amended): `TelegramMessageEntity.from_dict` performs no validation
at all — any `type`, any (possibly negative) `offset`/`length` and any
combination of payloads are accepted verbatim, and the only construction
failure is a `KeyError` for a missing `type`/`offset`/`length` key; no
`InvalidEntity` exception exists in the code. -/
theorem claims_C6 :
    (∀ (ty : String) (o l : Int) (u : Option (List Char)) (us : Option Int)
        (lg : Option (List Char)),
      entity_from_dict ⟨some ty, some o, some l, u, us, lg⟩ =
        Except.ok ⟨ty, o, l, u, us, lg⟩) ∧
    (∀ d : RawEnt,
      entity_from_dict d = Except.error PyExc.keyErr ↔
        (d.rtype = none ∨ d.roffset = none ∨ d.rlength = none)) := by
  constructor
  · intro ty o l u us lg
    rfl
  · intro d
    rcases d with ⟨ty, o, l, u, us, lg⟩
    rcases ty with _ | ty <;> rcases o with _ | o <;> rcases l with _ | l <;>
      simp [entity_from_dict]

/-- C6 counterexample: the claim as stated is false on the code — an entity
with negative offset is constructed without any exception, and a `url`
entity lacking its URL payload is accepted at construction but raises (an
assertion error) in the middle of rendering. -/
theorem claims_C6_counterexample :
    entity_from_dict ⟨some "bold", some (-1), some 2, none, none, none⟩ =
      Except.ok ⟨"bold", -1, 2, none, none, none⟩ ∧
    renderCore "ab".toList [⟨"url", 0, 2, none, none, none⟩] 0 =
      Except.error PyExc.assertionErr := by
  exact ⟨rfl, rfl⟩

/-- C7 (amended): for entity-free text containing no backslash, rendering
applies the common escape set and every common markup character of the
output is preceded by exactly one backslash (and every backslash escapes
exactly one such character).  The escape is however not idempotent, because
the backslash itself is not in the common set — see the counterexample. -/
theorem claims_C7 (t : List Char) (hnb : '\\' ∉ t) :
    renderCore t [] 0 = Except.ok (escapeSet ESC_COMMON t) ∧
    escapedOnce (escapeSet ESC_COMMON t) = true :=
  ⟨renderCore_nil t, escapedOnce_escapeSet t hnb⟩

/-- C7 witness: the amended statement applied at the concrete backslash-free
input `"a(b)!"`. -/
theorem claims_C7_witness :
    renderCore "a(b)!".toList [] 0 =
        Except.ok (escapeSet ESC_COMMON "a(b)!".toList) ∧
      escapedOnce (escapeSet ESC_COMMON "a(b)!".toList) = true :=
  claims_C7 "a(b)!".toList (by decide)

/-- C7 counterexample: the claim as stated is false — feeding
already-escaped output back in as plain text doubles the backslash before
the dot (`"\."` renders to `"\\."`), so the common-escape transformation is
not idempotent and an escape backslash is duplicated on re-render. -/
theorem claims_C7_counterexample :
    renderCore ".".toList [] 0 = Except.ok "\\.".toList ∧
    renderCore "\\.".toList [] 0 = Except.ok "\\\\.".toList ∧
    "\\\\.".toList ≠ "\\.".toList := by
  refine ⟨rfl, rfl, ?_⟩
  decide

/-- C8: when the message text is not a string (the nullable DB column's
`None`), rendering returns the value unchanged and command extraction
returns the empty mapping; neither raises. -/
theorem claims_C8 :
    (∀ (ents : List Ent) (off : Int),
      get_markdown_v2_text none ents off = Except.ok none) ∧
    (∀ ents : List Ent, bot_commands none ents = []) :=
  ⟨fun _ _ => rfl, fun _ => rfl⟩

/-- C10: a `bot_command` entity whose span ends exactly at the end of the
text yields the argument list `[""]` (a one-element list containing the
empty string), because `"".strip().split(" ") == [""]` in Python. -/
theorem claims_C10 (t : List Char) (e : Ent)
    (hty : e.etype = "bot_command")
    (hend : e.offset + e.length = (t.length : Int)) :
    bot_commands (some t) [e] = [(cmdTok t e, [[]])] := by
  have hparams : cmdParams t e = [[]] := by
    rw [cmdParams, hend, pySlice_len_len]
    rfl
  simp [bot_commands, botCmdStep, hty, hparams]

/-- C10 witness: the command `"/go"` spanning the whole text extracts the
argument list containing exactly the empty string. -/
theorem claims_C10_witness :
    bot_commands (some "/go".toList) [mkEnt "bot_command" 0 3] =
      [("/go".toList, [[]])] :=
  claims_C10 "/go".toList (mkEnt "bot_command" 0 3) rfl (by decide)

/-! Helper lemmas for the dispatcher. -/

theorem puGo_cons (u : PyVal) (log : List (String × PyVal)) (lbl : String)
    (f : PyVal → PyVal) (rest : List (String × (PyVal → PyVal))) :
    puGo u log ((lbl, f) :: rest) =
      if continuesB (f u) then puGo u (pyDictInsert log lbl (f u)) rest
      else if stopsCleanB (f u) then Except.ok (pyDictInsert log lbl (f u))
      else Except.error PyExc.keyErr := by
  rcases hr : f u with _ | b | n | s | l | entries
  · simp [puGo, continuesB, stopsCleanB, truthy, hr]
  · cases b <;> simp [puGo, continuesB, stopsCleanB, truthy, hr]
  · by_cases hn : n = 0 <;>
      simp [puGo, continuesB, stopsCleanB, truthy, hr, hn]
  · by_cases hs : s = "" <;>
      simp [puGo, continuesB, stopsCleanB, truthy, hr, hs]
  · rcases l with _ | ⟨x, xs⟩ <;>
      simp [puGo, continuesB, stopsCleanB, truthy, hr]
  · rcases entries with _ | ⟨p, ps⟩
    · simp [puGo, continuesB, stopsCleanB, truthy, hr]
    · rcases hg : pyDictGet (p :: ps) "ok" with _ | v
      · simp [puGo, continuesB, stopsCleanB, truthy, hr, hg]
      · rcases v with _ | vb | vn | vs | vl | vd
        · simp [puGo, continuesB, stopsCleanB, truthy, hr, hg]
        · cases vb <;> simp [puGo, continuesB, stopsCleanB, truthy, hr, hg]
        · simp [puGo, continuesB, stopsCleanB, truthy, hr, hg]
        · simp [puGo, continuesB, stopsCleanB, truthy, hr, hg]
        · simp [puGo, continuesB, stopsCleanB, truthy, hr, hg]
        · simp [puGo, continuesB, stopsCleanB, truthy, hr, hg]

theorem stopsClean_not_continues (r : PyVal) (h : stopsCleanB r = true) :
    continuesB r = false := by
  rcases r with _ | b | n | s | l | entries
  · rfl
  · cases b
    · rfl
    · simp [stopsCleanB, truthy] at h
  · by_cases hn : n = 0
    · simp [continuesB, truthy, hn]
    · simp [stopsCleanB, truthy, hn] at h
  · by_cases hs : s = ""
    · simp [continuesB, truthy, hs]
    · simp [stopsCleanB, truthy, hs] at h
  · rcases l with _ | ⟨x, xs⟩
    · rfl
    · simp [stopsCleanB, truthy] at h
  · rcases entries with _ | ⟨p, ps⟩
    · rfl
    · rcases hg : pyDictGet (p :: ps) "ok" with _ | v
      · simp [stopsCleanB, truthy, hg] at h
      · rcases v with _ | vb | vn | vs | vl | vd
        · simp [continuesB, truthy, hg]
        · cases vb
          · simp [continuesB, truthy, hg]
          · simp [stopsCleanB, truthy, hg] at h
        · simp [continuesB, truthy, hg]
        · simp [continuesB, truthy, hg]
        · simp [continuesB, truthy, hg]
        · simp [continuesB, truthy, hg]

theorem puGo_chain (u : PyVal) (pre : List (String × (PyVal → PyVal)))
    (hd : String × (PyVal → PyVal)) (post : List (String × (PyVal → PyVal)))
    (log : List (String × PyVal))
    (hpre : ∀ p ∈ pre, continuesB (p.2 u) = true)
    (hstop : stopsCleanB (hd.2 u) = true)
    (hfresh : ∀ p ∈ pre ++ [hd], p.1 ∉ log.map Prod.fst)
    (hnd : ((pre ++ [hd]).map Prod.fst).Nodup) :
    puGo u log (pre ++ hd :: post) =
      Except.ok (log ++ (pre ++ [hd]).map (fun p => (p.1, p.2 u))) := by
  induction pre generalizing log with
  | nil =>
    obtain ⟨lbl, f⟩ := hd
    have hf : lbl ∉ log.map Prod.fst := hfresh (lbl, f) (by simp)
    rw [List.nil_append, puGo_cons, stopsClean_not_continues _ hstop]
    rw [if_neg (by simp), if_pos hstop]
    rw [pyDictInsert_fresh log lbl (f u) hf]
    simp
  | cons p pre ih =>
    obtain ⟨lbl, f⟩ := p
    have hcont : continuesB (f u) = true := hpre (lbl, f) (by simp)
    have hf : lbl ∉ log.map Prod.fst := hfresh (lbl, f) (by simp)
    have hnd1 :
        lbl ∉ (pre ++ [hd]).map Prod.fst ∧
          ((pre ++ [hd]).map Prod.fst).Nodup := by
      rw [List.cons_append, List.map_cons] at hnd
      exact List.nodup_cons.mp hnd
    have hpre' : ∀ q ∈ pre, continuesB (q.2 u) = true := by
      intro q hq
      exact hpre q (List.mem_cons_of_mem _ hq)
    have hfresh' :
        ∀ q ∈ pre ++ [hd],
          q.1 ∉ (log ++ [(lbl, f u)]).map Prod.fst := by
      intro q hq
      have h1 : q.1 ∉ log.map Prod.fst :=
        hfresh q (by
          rw [List.cons_append]
          exact List.mem_cons_of_mem _ hq)
      have h2 : q.1 ≠ lbl := by
        intro e
        apply hnd1.1
        rw [← e]
        exact List.mem_map_of_mem Prod.fst hq
      simp [List.map_append, h1, h2]
    rw [List.cons_append, puGo_cons, hcont, if_pos rfl,
      pyDictInsert_fresh log lbl (f u) hf,
      ih (log ++ [(lbl, f u)]) hpre' hfresh' hnd1.2]
    simp

/-- C3 (amended): handlers are invoked strictly in registration order and
each invoked handler's raw result is recorded in the result log under its
label; dispatch stops immediately after the first handler whose result is
falsy or is a mapping whose `"ok"` entry is present and not the `True`
value, and later handlers are neither invoked nor logged.  The amendment:
a handler returning a truthy mapping with no `"ok"` entry does not continue
dispatch — the unconditional `f_result["ok"]` lookup raises `KeyError`
(see the counterexample), so the clean short-circuit behaviour holds only
when the stopping handler's result is falsy or carries an `"ok"` entry. -/
theorem claims_C3 (u : PyVal) (pre post : List (String × (PyVal → PyVal)))
    (hd : String × (PyVal → PyVal))
    (hpre : ∀ p ∈ pre, continuesB (p.2 u) = true)
    (hstop : stopsCleanB (hd.2 u) = true)
    (hnd : ((pre ++ [hd]).map Prod.fst).Nodup) :
    process_update (pre ++ hd :: post) u =
      Except.ok ((pre ++ [hd]).map (fun p => (p.1, p.2 u))) := by
  show puGo u [] (pre ++ hd :: post) = _
  rw [puGo_chain u pre hd post [] hpre hstop (by simp) hnd]
  rfl

/-- C3 witness: three handlers of which the second returns a falsy value;
dispatch invokes exactly the first two, logs them in order under their
labels, and the third has no log entry. -/
theorem claims_C3_witness :
    process_update
      [("m.h1", fun _ => PyVal.pbool true),
       ("m.h2", fun _ => PyVal.pbool false),
       ("m.h3", fun _ => PyVal.pbool true)] PyVal.pnone =
      Except.ok [("m.h1", PyVal.pbool true), ("m.h2", PyVal.pbool false)] := by
  have h := claims_C3 PyVal.pnone
      [("m.h1", fun _ => PyVal.pbool true)]
      [("m.h3", fun _ => PyVal.pbool true)]
      ("m.h2", fun _ => PyVal.pbool false)
      (by
        intro p hp
        rw [List.mem_singleton] at hp
        subst hp
        rfl)
      rfl
      (by decide)
  exact h

/-- C3 counterexample: the claim as stated is false — a handler returning
the truthy mapping `{"x": 1}` (no `"ok"` entry) does raise: the dispatcher
evaluates `f_result["ok"]`, so `process_update` propagates a `KeyError`
instead of continuing to the next handler. -/
theorem claims_C3_counterexample :
    process_update
      [("m.h1", fun _ => PyVal.pdict [("x", PyVal.pint 1)]),
       ("m.h2", fun _ => PyVal.pbool true)] PyVal.pnone =
      Except.error PyExc.keyErr := rfl

/-- C9 (amended): for every token accepted by the token setter (its segment
before the first `:` parses as an integer), `BotDispatcher.get` always
constructs a fresh dispatcher — the fallback argument `cls(token)` of the
registry lookup is evaluated unconditionally — which overwrites the registry
entry for that token; the instance returned is that fresh one, its handler
list is empty, and it is never a previously created dispatcher (its
identity is new).  The amendment: for a token whose prefix does not parse
as an integer, `get` does not return an instance at all — the constructor
raises `EInvalidBotToken` (see the counterexample). -/
theorem claims_C9 (st : Registry) (tok : String) (n : Int)
    (hparse : pyParseInt (tok.toList.takeWhile (fun c => c ≠ ':')) = some n)
    (hinv : ∀ p ∈ st.bots, p.2.uid < st.nextUid) :
    ∃ d st1, bot_dispatcher_get st tok = Except.ok (d, st1) ∧
      d.updateHandlers = [] ∧ d.uid = st.nextUid ∧
      pyDictGet st1.bots tok = some d ∧
      ∀ p ∈ st.bots, p.2.uid ≠ d.uid := by
  refine ⟨⟨tok, n, [], st.nextUid⟩,
    ⟨pyDictInsert st.bots tok ⟨tok, n, [], st.nextUid⟩, st.nextUid + 1⟩,
    ?_, rfl, rfl, ?_, ?_⟩
  · rw [bot_dispatcher_get, dispatcherInit, hparse]
    simp [pyDictGet_pyDictInsert_self]
  · exact pyDictGet_pyDictInsert_self _ _ _
  · intro p hp
    exact Nat.ne_of_lt (hinv p hp)

/-- C9 witness: a registry already holding a dispatcher (identity 3, one
registered handler) under the token `"7:a"`; `get` on that same token
returns a brand-new dispatcher with a fresh identity, an empty handler
list, and overwrites the registry entry. -/
theorem claims_C9_witness :
    ∃ d st1,
      bot_dispatcher_get
          ⟨[("7:a", ⟨"7:a", 7, [("m.old", fun v => v)], 3⟩)], 5⟩ "7:a" =
        Except.ok (d, st1) ∧
      d.updateHandlers = [] ∧ d.uid = 5 ∧
      pyDictGet st1.bots "7:a" = some d ∧
      ∀ p ∈ [("7:a",
          (⟨"7:a", 7, [("m.old", fun v => v)], 3⟩ : BotD))], p.2.uid ≠ d.uid := by
  have h := claims_C9
      ⟨[("7:a", ⟨"7:a", 7, [("m.old", fun v => v)], 3⟩)], 5⟩ "7:a" 7
      rfl
      (by
        intro p hp
        rw [List.mem_singleton] at hp
        subst hp
        decide)
  exact h

/-- C9 counterexample: the claim as stated quantifies over every token, but
for the token `"x"` (no integer before the colon) `get` raises
`EInvalidBotToken` from the constructor instead of returning a fresh
dispatcher. -/
theorem claims_C9_counterexample :
    bot_dispatcher_get ⟨[], 0⟩ "x" = Except.error PyExc.invalidBotToken := rfl

/-! Helper lemmas for the two-entity render theorem (C5). -/

theorem sortEnts_pair (a b : Ent) (hlen : b.length ≤ a.length)
    (hoff : a.offset ≤ b.offset) :
    sortEnts [(0, a), (1, b)] = [(0, a), (1, b)] := by
  simp [sortEnts, insLenDesc, insOffAsc, List.foldl, hlen, hoff, ge_iff_le]

theorem c5_go_b (f : Nat) (text : List Char) (aty bty : String)
    (o la lb : Int) (au bu : Option (List Char)) (atm btm : Option Int)
    (alang blang : Option (List Char))
    (h0b : 0 < lb) (hba : lb < la) :
    go (f + 1)
        [(0, ⟨aty, o, la, au, atm, alang⟩), (1, ⟨bty, o, lb, bu, btm, blang⟩)]
        text 0 [0] (some (1, ⟨bty, o, lb, bu, btm, blang⟩)) =
      ([0, 1],
        wrapEnt ⟨bty, o, lb, bu, btm, blang⟩
          (escapeSet ESC_COMMON (pySlice text o (o + lb)))) := by
  have hd2 : (decide (o + la ≤ o + lb)) = false := by
    simp only [decide_eq_false_iff_not]
    omega
  have hlt : o < o + lb := by omega
  have hno : ¬(o < o) := lt_irrefl o
  simp only [go, hd2, Bool.and_false, Bool.false_and, bne_self_eq_false,
    Bool.false_eq_true, if_false, List.contains, List.elem, beq_iff_eq,
    OfNat.one_ne_ofNat, Bool.and_true, Bool.true_and, List.filter,
    List.foldl_nil, ite_self, List.cons_append, List.nil_append,
    if_pos hlt]
  rcases hw : wrapEnt ⟨bty, o, lb, bu, btm, blang⟩
      (escapeSet ESC_COMMON (pySlice text o (o + lb))) with e | w <;>
    simp [hw]

theorem c5_go_a (f : Nat) (text : List Char) (aty bty : String)
    (o la lb : Int) (au bu : Option (List Char)) (atm btm : Option Int)
    (alang blang : Option (List Char))
    (h0b : 0 < lb) (hba : lb < la)
    (hak : aty ≠ "code" ∧ aty ≠ "pre") :
    go (f + 1 + 1)
        [(0, ⟨aty, o, la, au, atm, alang⟩), (1, ⟨bty, o, lb, bu, btm, blang⟩)]
        text 0 [] (some (0, ⟨aty, o, la, au, atm, alang⟩)) =
      ([0, 1],
        (wrapEnt ⟨bty, o, lb, bu, btm, blang⟩
            (escapeSet ESC_COMMON (pySlice text o (o + lb)))).bind (fun wb =>
          wrapEnt ⟨aty, o, la, au, atm, alang⟩
            (wb ++ escapeSet ESC_COMMON (pySlice text (o + lb) (o + la))))) := by
  have hpre : (decide (aty = "pre")) = false := by
    simp [hak.2]
  have hcode : (decide (aty = "code")) = false := by
    simp [hak.1]
  have hd1 : (decide ((o : Int) ≤ o)) = true := by simp
  have hd2 : (decide (o + lb ≤ o + la)) = true := by
    simp only [decide_eq_true_eq]
    omega
  have hno : ¬(o < o) := lt_irrefl o
  have hlt2 : o + lb < o + la := by omega
  have hbne : ((1 : Nat) != 0) = true := rfl
  have hcn : List.contains ([] : List Nat) 0 = false := rfl
  have hcz : List.contains ([0] : List Nat) 1 = false := rfl
  rw [go]
  simp only [hpre, hcode, Bool.or_self, Bool.false_or, Bool.false_eq_true,
    if_false, hd1, hd2, Bool.true_and, Bool.and_true, bne_self_eq_false,
    Bool.false_and, Bool.and_false, hbne, hcn, hcz, Bool.not_false,
    List.filter, List.foldl_cons, List.foldl_nil, List.cons_append,
    List.nil_append, if_neg hno, ite_self]
  rw [c5_go_b f text aty bty o la lb au bu atm btm alang blang h0b hba]
  rcases hw : wrapEnt ⟨bty, o, lb, bu, btm, blang⟩
      (escapeSet ESC_COMMON (pySlice text o (o + lb))) with e | wb
  · simp [hw, Except.bind]
  · simp only [hw, if_pos hlt2, List.nil_append, Except.bind]
    rcases hwa : wrapEnt ⟨aty, o, la, au, atm, alang⟩
        (wb ++ escapeSet ESC_COMMON (pySlice text (o + lb) (o + la))) with
        e2 | wa <;> simp [hwa]

theorem sortEnts_pair_rev (a b : Ent) (hlen : ¬(a.length ≤ b.length))
    (hoff : a.offset ≤ b.offset) :
    sortEnts [(0, b), (1, a)] = [(1, a), (0, b)] := by
  simp [sortEnts, insLenDesc, insOffAsc, List.foldl, hlen, hoff, ge_iff_le]

theorem c5_go_b2 (f : Nat) (text : List Char) (aty bty : String)
    (o la lb : Int) (au bu : Option (List Char)) (atm btm : Option Int)
    (alang blang : Option (List Char))
    (h0b : 0 < lb) (hba : lb < la) :
    go (f + 1)
        [(1, ⟨aty, o, la, au, atm, alang⟩), (0, ⟨bty, o, lb, bu, btm, blang⟩)]
        text 0 [1] (some (0, ⟨bty, o, lb, bu, btm, blang⟩)) =
      ([1, 0],
        wrapEnt ⟨bty, o, lb, bu, btm, blang⟩
          (escapeSet ESC_COMMON (pySlice text o (o + lb)))) := by
  have hd2 : (decide (o + la ≤ o + lb)) = false := by
    simp only [decide_eq_false_iff_not]
    omega
  have hlt : o < o + lb := by omega
  have hcz : List.contains ([1] : List Nat) 0 = false := rfl
  simp only [go, hd2, Bool.and_false, Bool.false_and, bne_self_eq_false,
    Bool.false_eq_true, if_false, hcz, Bool.and_true, Bool.true_and,
    List.filter, List.foldl_nil, ite_self, List.cons_append,
    List.nil_append, if_pos hlt]
  rcases hw : wrapEnt ⟨bty, o, lb, bu, btm, blang⟩
      (escapeSet ESC_COMMON (pySlice text o (o + lb))) with e | w <;>
    simp [hw]

theorem c5_go_a2 (f : Nat) (text : List Char) (aty bty : String)
    (o la lb : Int) (au bu : Option (List Char)) (atm btm : Option Int)
    (alang blang : Option (List Char))
    (h0b : 0 < lb) (hba : lb < la)
    (hak : aty ≠ "code" ∧ aty ≠ "pre") :
    go (f + 1 + 1)
        [(1, ⟨aty, o, la, au, atm, alang⟩), (0, ⟨bty, o, lb, bu, btm, blang⟩)]
        text 0 [] (some (1, ⟨aty, o, la, au, atm, alang⟩)) =
      ([1, 0],
        (wrapEnt ⟨bty, o, lb, bu, btm, blang⟩
            (escapeSet ESC_COMMON (pySlice text o (o + lb)))).bind (fun wb =>
          wrapEnt ⟨aty, o, la, au, atm, alang⟩
            (wb ++ escapeSet ESC_COMMON (pySlice text (o + lb) (o + la))))) := by
  have hpre : (decide (aty = "pre")) = false := by
    simp [hak.2]
  have hcode : (decide (aty = "code")) = false := by
    simp [hak.1]
  have hd1 : (decide ((o : Int) ≤ o)) = true := by simp
  have hd2 : (decide (o + lb ≤ o + la)) = true := by
    simp only [decide_eq_true_eq]
    omega
  have hno : ¬(o < o) := lt_irrefl o
  have hlt2 : o + lb < o + la := by omega
  have hbne : ((0 : Nat) != 1) = true := rfl
  have hcn : List.contains ([] : List Nat) 1 = false := rfl
  have hcz : List.contains ([1] : List Nat) 0 = false := rfl
  rw [go]
  simp only [hpre, hcode, Bool.or_self, Bool.false_or, Bool.false_eq_true,
    if_false, hd1, hd2, Bool.true_and, Bool.and_true, bne_self_eq_false,
    Bool.false_and, Bool.and_false, hbne, hcn, hcz, Bool.not_false,
    List.filter, List.foldl_cons, List.foldl_nil, List.cons_append,
    List.nil_append, if_neg hno, ite_self]
  rw [c5_go_b2 f text aty bty o la lb au bu atm btm alang blang h0b hba]
  rcases hw : wrapEnt ⟨bty, o, lb, bu, btm, blang⟩
      (escapeSet ESC_COMMON (pySlice text o (o + lb))) with e | wb
  · simp [hw, Except.bind]
  · simp only [hw, if_pos hlt2, List.nil_append, Except.bind]
    rcases hwa : wrapEnt ⟨aty, o, la, au, atm, alang⟩
        (wb ++ escapeSet ESC_COMMON (pySlice text (o + lb) (o + la))) with
        e2 | wa <;> simp [hwa]

/-- C5 (amended): for a message carrying two entities that start at the same
offset with different lengths — in either given order of its entity list —
the double stable sort visits the longer entity first (the reversed given
order, shorter before longer, is exactly the arrangement the equal-offset
length-descending tie-break reorders), and — provided the longer entity is
not of kind `code`/`pre`, which never nests (see the counterexample) — the
longer entity becomes the outer markup wrapper with the shorter one
rendered nested inside it: the output is the longer entity's wrap applied
to (the shorter entity's wrapped body followed by the escaped remainder of
the longer span), identically for both given orders.  The theorem also
records, faithfully to the code, that the text from the shorter span's end
onward is emitted once more after the outer wrapper (the cursor of the
top-level call is moved back to the shorter entity's end). -/
theorem claims_C5 (text : List Char) (aty bty : String) (o la lb : Int)
    (au bu : Option (List Char)) (atm btm : Option Int)
    (alang blang : Option (List Char))
    (h0o : 0 ≤ o) (h0b : 0 < lb) (hba : lb < la)
    (hlen : o + la ≤ (text.length : Int))
    (hak : aty ≠ "code" ∧ aty ≠ "pre") :
    renderCore text
      [⟨aty, o, la, au, atm, alang⟩, ⟨bty, o, lb, bu, btm, blang⟩] 0 =
    ((wrapEnt ⟨bty, o, lb, bu, btm, blang⟩
        (escapeSet ESC_COMMON (pySlice text o (o + lb)))).bind (fun wb =>
      wrapEnt ⟨aty, o, la, au, atm, alang⟩
        (wb ++ escapeSet ESC_COMMON (pySlice text (o + lb) (o + la))))).map
      (fun wa =>
        escapeSet ESC_COMMON (pySlice text 0 o) ++ wa ++
          escapeSet ESC_COMMON (pySlice text (o + lb) (text.length : Int))) ∧
    renderCore text
      [⟨bty, o, lb, bu, btm, blang⟩, ⟨aty, o, la, au, atm, alang⟩] 0 =
    ((wrapEnt ⟨bty, o, lb, bu, btm, blang⟩
        (escapeSet ESC_COMMON (pySlice text o (o + lb)))).bind (fun wb =>
      wrapEnt ⟨aty, o, la, au, atm, alang⟩
        (wb ++ escapeSet ESC_COMMON (pySlice text (o + lb) (o + la))))).map
      (fun wa =>
        escapeSet ESC_COMMON (pySlice text 0 o) ++ wa ++
          escapeSet ESC_COMMON (pySlice text (o + lb) (text.length : Int))) := by
  have hga := c5_go_a 0 text aty bty o la lb au bu atm btm alang blang h0b hba hak
  rw [show (0 + 1 + 1 : Nat) = 2 from rfl] at hga
  have hga2 := c5_go_a2 0 text aty bty o la lb au bu atm btm alang blang h0b
    hba hak
  rw [show (0 + 1 + 1 : Nat) = 2 from rfl] at hga2
  have hd0 : (decide ((0 : Int) ≤ o)) = true := by
    simp only [decide_eq_true_eq]
    exact h0o
  have hdA : (decide (o + la ≤ 0 + ((text.length : Int) - 0))) = true := by
    simp only [decide_eq_true_eq]
    omega
  have hdB : (decide (o + lb ≤ 0 + ((text.length : Int) - 0))) = true := by
    simp only [decide_eq_true_eq]
    omega
  have hcn0 : List.contains ([] : List Nat) 0 = false := rfl
  have hcn1 : List.contains ([] : List Nat) 1 = false := rfl
  have hcz1 : List.contains ([0, 1] : List Nat) 1 = true := rfl
  have hcz0 : List.contains ([1, 0] : List Nat) 0 = true := rfl
  have hnla : ¬(o + la < o) := by omega
  have hidx : (0 : Int) + ((text.length : Int) - 0) = (text.length : Int) := by
    ring
  have hltb2 : o + lb < (text.length : Int) := by omega
  constructor
  · show (go (2 + 1)
        (sortEnts [(0, ⟨aty, o, la, au, atm, alang⟩),
          (1, ⟨bty, o, lb, bu, btm, blang⟩)]) text 0 [] none).2 = _
    rw [sortEnts_pair _ _ (le_of_lt hba) (le_refl o)]
    rw [go]
    simp only [hd0, hdA, hdB, hcn0, hcn1, Bool.true_and, Bool.and_true,
      Bool.not_false, Bool.false_eq_true, if_false, List.filter,
      List.foldl_cons, List.foldl_nil, List.cons_append, List.nil_append]
    rw [hga]
    rcases hR : (wrapEnt ⟨bty, o, lb, bu, btm, blang⟩
        (escapeSet ESC_COMMON (pySlice text o (o + lb)))).bind (fun wb =>
          wrapEnt ⟨aty, o, la, au, atm, alang⟩
            (wb ++ escapeSet ESC_COMMON (pySlice text (o + lb) (o + la)))) with
        e | wa
    · simp [hR, Except.map]
    · simp only [hR, Except.map, hcz1, if_true, if_neg hnla, List.append_nil,
        List.nil_append, hidx]
      rw [if_pos hltb2]
      by_cases ho : (0 : Int) < o
      · rw [if_pos ho]
      · have ho0 : o = 0 := by omega
        subst ho0
        rw [if_neg ho]
        simp [pySlice_zero_zero, escapeSet]
  · show (go (2 + 1)
        (sortEnts [(0, ⟨bty, o, lb, bu, btm, blang⟩),
          (1, ⟨aty, o, la, au, atm, alang⟩)]) text 0 [] none).2 = _
    rw [sortEnts_pair_rev _ _ (by
        show ¬((la : Int) ≤ lb)
        omega) (le_refl o)]
    rw [go]
    simp only [hd0, hdA, hdB, hcn0, hcn1, Bool.true_and, Bool.and_true,
      Bool.not_false, Bool.false_eq_true, if_false, List.filter,
      List.foldl_cons, List.foldl_nil, List.cons_append, List.nil_append]
    rw [hga2]
    rcases hR : (wrapEnt ⟨bty, o, lb, bu, btm, blang⟩
        (escapeSet ESC_COMMON (pySlice text o (o + lb)))).bind (fun wb =>
          wrapEnt ⟨aty, o, la, au, atm, alang⟩
            (wb ++ escapeSet ESC_COMMON (pySlice text (o + lb) (o + la)))) with
        e | wa
    · simp [hR, Except.map]
    · simp only [hR, Except.map, hcz0, if_true, if_neg hnla, List.append_nil,
        List.nil_append, hidx]
      rw [if_pos hltb2]
      by_cases ho : (0 : Int) < o
      · rw [if_pos ho]
      · have ho0 : o = 0 := by omega
        subst ho0
        rw [if_neg ho]
        simp [pySlice_zero_zero, escapeSet]

/-- C5 witness: text `"abcd"` with `bold(0,4)` and `italic(0,2)` in both
given orders — in particular the reversed order `[italic, bold]`, where the
equal-offset length-descending tie-break does the reordering; in both cases
the longer bold entity is the outer wrapper, the shorter italic one is
nested inside it, and the output evaluates to `"*_ab_cd*cd"` (the trailing
`"cd"` being the duplicated text after the shorter span documented in the
theorem). -/
theorem claims_C5_witness :
    (renderCore "abcd".toList
        [⟨"bold", 0, 4, none, none, none⟩,
         ⟨"italic", 0, 2, none, none, none⟩] 0 =
      ((wrapEnt ⟨"italic", 0, 2, none, none, none⟩
          (escapeSet ESC_COMMON (pySlice "abcd".toList 0 (0 + 2)))).bind
        (fun wb =>
          wrapEnt ⟨"bold", 0, 4, none, none, none⟩
            (wb ++ escapeSet ESC_COMMON
              (pySlice "abcd".toList (0 + 2) (0 + 4))))).map
        (fun wa =>
          escapeSet ESC_COMMON (pySlice "abcd".toList 0 0) ++ wa ++
            escapeSet ESC_COMMON
              (pySlice "abcd".toList (0 + 2) ("abcd".toList.length : Int))) ∧
    renderCore "abcd".toList
        [⟨"italic", 0, 2, none, none, none⟩,
         ⟨"bold", 0, 4, none, none, none⟩] 0 =
      ((wrapEnt ⟨"italic", 0, 2, none, none, none⟩
          (escapeSet ESC_COMMON (pySlice "abcd".toList 0 (0 + 2)))).bind
        (fun wb =>
          wrapEnt ⟨"bold", 0, 4, none, none, none⟩
            (wb ++ escapeSet ESC_COMMON
              (pySlice "abcd".toList (0 + 2) (0 + 4))))).map
        (fun wa =>
          escapeSet ESC_COMMON (pySlice "abcd".toList 0 0) ++ wa ++
            escapeSet ESC_COMMON
              (pySlice "abcd".toList (0 + 2) ("abcd".toList.length : Int)))) ∧
    renderCore "abcd".toList
        [⟨"bold", 0, 4, none, none, none⟩,
         ⟨"italic", 0, 2, none, none, none⟩] 0 =
      Except.ok "*_ab_cd*cd".toList ∧
    renderCore "abcd".toList
        [⟨"italic", 0, 2, none, none, none⟩,
         ⟨"bold", 0, 4, none, none, none⟩] 0 =
      Except.ok "*_ab_cd*cd".toList := by
  refine ⟨?_, rfl, rfl⟩
  exact claims_C5 "abcd".toList "bold" "italic" 0 4 2 none none none none
    none none (by decide) (by decide) (by decide) (by decide)
    ⟨by decide, by decide⟩

/-- C5 counterexample: the claim as stated is false when the longer entity
is of kind `code`/`pre` — for text `"abcd"` with `code(0,4)` and
`bold(0,2)` the output is `"`abcd`*ab*cd"`: the longer entity's rendering
`"`abcd`"` contains no bold markup at all, so the shorter entity is not
rendered nested inside the longer wrapper; its wrapper `*ab*` is emitted
after (outside) the fence instead. -/
theorem claims_C5_counterexample :
    renderCore "abcd".toList [mkEnt "code" 0 4, mkEnt "bold" 0 2] 0 =
      Except.ok ("`abcd`".toList ++ "*ab*cd".toList) ∧
    '*' ∉ "`abcd`".toList := by
  exact ⟨rfl, by decide⟩
